import Mathlib

/-!
Verification of the adaptive large-dataset analysis pipeline of the
`data_report` repository, against its natural-language specification.

The Python source is shallowly embedded in Lean:
* machine floats become exact rationals (`ℚ`); float literals such as
  `0.05` or `1.5` become the exact fractions `5/100` and `3/2`;
* data-dependent quantities that the chunk planner reads off a concrete
  polars dataframe (memory estimates of slices, the raw memory-derived
  chunk size) become oracle functions carried in a `Planner` record, so
  the theorems quantify over every possible dataframe;
* Python exceptions become `Except`/`Option` values or explicit boolean
  failure oracles;
* `numpy.corrcoef`, whose float result may contain NaN, is modelled as
  an oracle returning `Option ℚ` per entry (`none` = NaN).
-/

namespace DataReport

/-- `ChunkInfo` from `tasks/chunk_processor.py` (the `time_column` /
`time_range` annotation fields are omitted: they are never read by the
planner logic under verification). `memory_estimate` is in MB. -/
structure ChunkInfo where
  chunk_id : ℕ
  start_row : ℕ
  end_row : ℕ
  row_count : ℕ
  memory_estimate : ℚ
  deriving DecidableEq, Repr

/-- The environment of one `DataChunkProcessor` run on one dataframe.
`maxMem`, `minChunkRows`, `maxChunkRows` are the constructor
configuration.  The four oracles record what the concrete dataframe
would answer: `memEst off len` is `estimate_memory_usage(df.slice(off, len))`
in MB, and `rawRows off len` is `int(max_chunk_memory_mb / memory_per_row)`
computed by `calculate_optimal_chunk_size` on `df.slice(off, len)`;
`memEstS` / `rawRowsS` are the same quantities on the time-sorted
dataframe used by `create_time_based_chunks`. -/
structure Planner where
  maxMem : ℚ
  minChunkRows : ℕ
  maxChunkRows : ℕ
  memEst : ℕ → ℕ → ℚ
  memEstS : ℕ → ℕ → ℚ
  rawRows : ℕ → ℕ → ℕ
  rawRowsS : ℕ → ℕ → ℕ

/-- `calculate_optimal_chunk_size` (chunk_processor.py:65-94): the raw
memory-derived row count clamped to `[min_chunk_rows, max_chunk_rows]`;
for an empty slice it returns `min_chunk_rows`. -/
def optimalChunkSize (minRows maxRows : ℕ) (raw : ℕ → ℕ → ℕ) (off len : ℕ) : ℕ :=
  if len = 0 then minRows else max minRows (min maxRows (raw off len))

/-- The loop of `create_row_based_chunks` (chunk_processor.py:112-127):
`for i in range(0, total_rows, chunk_size)` appends the chunk
`[i, min(i + chunk_size, total_rows))` with `chunk_id = len(chunks)`.
For `chunkSize ≥ 1` the iteration count is `⌈total / chunkSize⌉`. -/
def rowChunks (mem : ℕ → ℕ → ℚ) (chunkSize off total : ℕ) : List ChunkInfo :=
  (List.range ((total + chunkSize - 1) / chunkSize)).map (fun j =>
    { chunk_id := j
      start_row := j * chunkSize
      end_row := min ((j + 1) * chunkSize) total
      row_count := min ((j + 1) * chunkSize) total - j * chunkSize
      memory_estimate := mem (off + j * chunkSize) (min ((j + 1) * chunkSize) total - j * chunkSize) })

/-- `create_row_based_chunks` (chunk_processor.py:96-130) on the slice
`df.slice(off, total)` of the original dataframe; returns `[]` for an
empty slice. -/
def createRowBasedChunks (P : Planner) (off total : ℕ) : List ChunkInfo :=
  if total = 0 then []
  else rowChunks P.memEst (optimalChunkSize P.minChunkRows P.maxChunkRows P.rawRows off total) off total

/-- `create_row_based_chunks` applied to the time-sorted dataframe, as
done inside `create_time_based_chunks` (chunk_processor.py:164-168).
Sorting permutes rows but keeps the row count, so only the memory and
chunk-size oracles differ. The per-chunk time-range annotation loop
(lines 170-212) mutates no row-range or id field and is omitted. -/
def createRowBasedChunksSorted (P : Planner) (total : ℕ) : List ChunkInfo :=
  if total = 0 then []
  else rowChunks P.memEstS (optimalChunkSize P.minChunkRows P.maxChunkRows P.rawRowsS 0 total) 0 total

/-- The refinement loop of `create_adaptive_chunks`
(chunk_processor.py:265-279): a chunk whose memory estimate exceeds
`1.5 × max_chunk_memory_mb` is replaced by the row-based chunks of its
slice of the original dataframe, each sub-chunk renumbered to
`len(refined_chunks)` and shifted by the chunk's start row; any other
chunk is appended unchanged (its `chunk_id` is NOT renumbered). -/
def refineChunks (P : Planner) (acc : List ChunkInfo) : List ChunkInfo → List ChunkInfo
  | [] => acc
  | c :: rest =>
    if P.maxMem * 3 / 2 < c.memory_estimate then
      refineChunks P
        (acc ++ (createRowBasedChunks P c.start_row c.row_count).mapIdx (fun i s =>
          { chunk_id := acc.length + i
            start_row := s.start_row + c.start_row
            end_row := s.end_row + c.start_row
            row_count := s.row_count
            memory_estimate := s.memory_estimate })) rest
    else refineChunks P (acc ++ [c]) rest

/-- `create_adaptive_chunks` (chunk_processor.py:221-285).
`hasTimeCol` is `time_column and time_column in df.columns`; `timeOk`
is whether `create_time_based_chunks` reaches its sorted row-chunking
(false models a null time range or an internal exception, both of which
fall back to row-based chunks of the unsorted dataframe). -/
def createAdaptiveChunks (P : Planner) (total : ℕ) (hasTimeCol timeOk : Bool) : List ChunkInfo :=
  let totalMem := P.memEst 0 total
  if totalMem ≤ P.maxMem then
    [{ chunk_id := 0, start_row := 0, end_row := total, row_count := total,
       memory_estimate := totalMem }]
  else if hasTimeCol = true ∧ 100000 < total then
    refineChunks P []
      (if timeOk then createRowBasedChunksSorted P total else createRowBasedChunks P 0 total)
  else createRowBasedChunks P 0 total

/-- A concrete planner environment exhibiting the chunk-id renumbering
slip: the sorted dataframe splits into one oversized chunk of 100000
rows (999 MB > 1.5 × 500 MB) followed by one 1-row chunk (1 MB), and
the oversized chunk is refined into two 50000-row sub-chunks. -/
def examplePlanner : Planner where
  maxMem := 500
  minChunkRows := 1000
  maxChunkRows := 1000000
  memEst := fun _ len => if len = 100001 then 1000 else 499
  memEstS := fun _ len => if len = 100000 then 999 else 1
  rawRows := fun _ _ => 50000
  rawRowsS := fun _ _ => 100000

/-- `chain a cs b`: the chunk list `cs` is a contiguous, exhaustive
partition of the row range `[a, b)` in list order — each chunk starts
where its predecessor ended, `row_count = end_row - start_row`, the
first chunk starts at `a` and the last ends at `b`.  This is the
row-range half of the spec's chunk-plan invariant (ids excluded). -/
def chain : ℕ → List ChunkInfo → ℕ → Prop
  | a, [], b => a = b
  | a, c :: rest, b =>
    c.start_row = a ∧ c.start_row ≤ c.end_row ∧ c.row_count = c.end_row - c.start_row ∧
    chain c.end_row rest b

/-! ## Stats-kind result merging (`_merge_stats_results`) -/

/-- One per-column numeric accumulator as consumed by
`_merge_stats_results` (chunk_processor.py:357-406): counts and sums
are merged additively, `min`/`max` by elementwise extrema starting from
`float('inf')` / `float('-inf')` (modelled as `⊤ : WithTop ℚ` and
`⊥ : WithBot ℚ`), and the per-column missing-value count is summed in
the `missing_values` loop (lines 392-394). -/
structure ColAcc where
  count : ℕ
  sum : ℚ
  sum_sq : ℚ
  min : WithTop ℚ
  max : WithBot ℚ
  missing : ℕ
  deriving DecidableEq

/-- The fresh accumulator `{count: 0, sum: 0, sum_sq: 0, min: inf, max: -inf}`
initialised at chunk_processor.py:377-383 (with missing count 0). -/
def emptyAcc : ColAcc :=
  { count := 0, sum := 0, sum_sq := 0, min := ⊤, max := ⊥, missing := 0 }

/-- One merge step of `_merge_stats_results` (chunk_processor.py:385-394):
`count += ...`, `sum += ...`, `sum_sq += ...`, `min = min(...)`,
`max = max(...)`, and the missing-value count is added. -/
def mergeAcc (a b : ColAcc) : ColAcc :=
  { count := a.count + b.count
    sum := a.sum + b.sum
    sum_sq := a.sum_sq + b.sum_sq
    min := min a.min b.min
    max := max a.max b.max
    missing := a.missing + b.missing }

/-- The merge loop over all chunk results (chunk_processor.py:371-394),
restricted to one column. -/
def mergeStats (accs : List ColAcc) : ColAcc :=
  accs.foldl mergeAcc emptyAcc

/-- Minimum of a list of rationals, `+∞` for the empty list. -/
def listMin (v : List ℚ) : WithTop ℚ :=
  v.foldr (fun x m => min (↑x) m) ⊤

/-- Maximum of a list of rationals, `-∞` for the empty list. -/
def listMax (v : List ℚ) : WithBot ℚ :=
  v.foldr (fun x m => max (↑x) m) ⊥

/-- Modelled from the spec: the per-chunk `PartialResult` accumulator
`{count, sum, sum_of_squares, min, max}` for one numeric column of one
chunk (spec §3), together with the per-column missing-value count.  No
producer of these dictionaries exists under `src/` — only the merger
`_merge_stats_results` consumes them — so the producer is taken from
the spec's words: values are the column's non-null entries. -/
def chunkAcc (col : List (Option ℚ)) : ColAcc :=
  let v := col.filterMap id
  { count := v.length
    sum := v.sum
    sum_sq := (v.map (fun x => x ^ 2)).sum
    min := listMin v
    max := listMax v
    missing := (col.filter (fun x => x.isNone)).length }

/-- `mean = sum / count` (chunk_processor.py:399), meaningful for `count > 0`. -/
def meanOf (a : ColAcc) : ℚ :=
  a.sum / (a.count : ℚ)

/-- `variance = (sum_sq - sum**2 / count) / (count - 1)`
(chunk_processor.py:401), meaningful for `count > 1`. -/
def varOf (a : ColAcc) : ℚ :=
  (a.sum_sq - a.sum ^ 2 / (a.count : ℚ)) / ((a.count : ℚ) - 1)

/-- `std = sqrt(max(0, variance))` for `count > 1`, else `std = 0`
(chunk_processor.py:400-404). -/
noncomputable def stdOf (a : ColAcc) : ℝ :=
  if 1 < a.count then Real.sqrt ((max 0 (varOf a) : ℚ) : ℝ) else 0

/-- The direct sample standard deviation of a whole column
(`np.std(values, ddof=1)` in `calculate_descriptive_stats`,
basic_stats.py:81; `0.0` for fewer than two values). -/
noncomputable def sampleStd (v : List ℚ) : ℝ :=
  if v.length ≤ 1 then 0
  else Real.sqrt ((((v.map (fun x => (x - v.sum / (v.length : ℚ)) ^ 2)).sum
      / ((v.length : ℚ) - 1) : ℚ) : ℝ))

/-! ## Sampling engine (`utils/sampling.py`) -/

/-- `calculate_optimal_sample_size` (sampling.py:13-32).  The float
percentages `0.05`, `0.1`, `0.2` followed by `int(...)` truncation are
modelled as the exact natural-number divisions `n * 5 / 100`, `n / 10`,
`n / 5`. -/
def calculateOptimalSampleSize (dataLength maxSampleSize : ℕ) : ℕ :=
  if dataLength ≤ maxSampleSize then dataLength
  else if 100000 < dataLength then min maxSampleSize (Max.max 5000 (dataLength * 5 / 100))
  else if 50000 < dataLength then min maxSampleSize (Max.max 8000 (dataLength / 10))
  else min maxSampleSize (Max.max 5000 (dataLength / 5))

/-- One stratum of `_stratified_time_sample` (sampling.py:104-120):
small strata are kept whole, larger ones are sampled at uniform stride
`stratum_size // samples_per_stratum` — which raises
`ZeroDivisionError` (modelled as `.error`) when the quota is zero. -/
def stratifiedStep (rowsPerStratum samplesPerStratum totalRows i : ℕ) :
    Except Unit (List ℕ) :=
  let startIdx := i * rowsPerStratum
  let endIdx := min ((i + 1) * rowsPerStratum) totalRows
  let stratumSize := endIdx - startIdx
  if stratumSize ≤ samplesPerStratum then
    Except.ok (List.range' startIdx stratumSize)
  else if samplesPerStratum = 0 then
    Except.error ()
  else
    Except.ok ((List.range samplesPerStratum).map
      (fun j => startIdx + j * (stratumSize / samplesPerStratum)))

/-- The index list built by `_stratified_time_sample` (sampling.py:78-125)
from the row count and the target size: 5-20 strata, per-stratum quota
`target // num_strata`, the per-stratum indices concatenated in order
and truncated to `target` at the end; an `.error` in any stratum aborts
the whole run (the Python exception propagates out of the loop).  The
Python `break` on `start_idx >= total_rows` is a `takeWhile` since
`start_idx` is monotone in the stratum index. -/
def stratifiedIndices (totalRows targetSize : ℕ) : Except Unit (List ℕ) :=
  let numStrata := min 20 (Max.max 5 (targetSize / 100))
  let rowsPerStratum := totalRows / numStrata
  let samplesPerStratum := targetSize / numStrata
  ((((List.range numStrata).takeWhile (fun i => i * rowsPerStratum < totalRows)).foldl
    (fun acc i => acc.bind (fun l =>
      (stratifiedStep rowsPerStratum samplesPerStratum totalRows i).map (fun s => l ++ s)))
    (Except.ok [])).map (fun l => l.take targetSize))

/-- Row count returned by `smart_time_series_sample` (sampling.py:35-75)
with `preserve_patterns=True` (the only call mode used).  `bodyFails`
is an oracle for "some step of the sort/stratify/index body raised"
(e.g. an unsortable time column); a `ZeroDivisionError` inside the
stratified sampler lands in the same `except`.  In both failure cases
the function falls back to `df.sample(n=target_size, seed=42)` — a
`target_size`-row seeded random sample — and returns it normally. -/
def smartSampleLen (bodyFails : Bool) (dfLen targetSize : ℕ) : ℕ :=
  if dfLen ≤ targetSize then dfLen
  else if bodyFails then targetSize
  else
    match stratifiedIndices dfLen targetSize with
    | Except.ok idxs => idxs.length
    | Except.error _ => targetSize

/-- Bucket frequency chosen from the estimated time span
(sampling.py:349-354); `none` models a `None` span (Python falsy). -/
def freqOf (timeRangeDays : Option ℚ) : String :=
  match timeRangeDays with
  | some d => if 365 < d then "1d" else if 30 < d then "1h" else "10min"
  | none => "10min"

/-- The sampling decision record (`sampling_info` in
`adaptive_sampling_strategy`).  The derived float fields
`sampling_ratio`/`performance_gain` are omitted except for their one
observable effect: the gain `original_size / len(sampled_df)` raises
`ZeroDivisionError` when the smart sample is empty, which the enclosing
`except` turns into the seeded random fallback. -/
structure SamplingInfo where
  original_size : ℕ
  sampled_size : ℕ
  sampling_method : String
  deriving DecidableEq, Repr

/-- What one concrete dataframe (plus time column choice) answers to the
data-dependent questions of `adaptive_sampling_strategy`:
`validTimeCount` is `df[time_col].is_not_null().sum()`;
`timeRangeDays` is `_estimate_time_range_days(df, time_col)`;
`resampleLen f` is `len(resample_time_series(df, time_col, f))`;
`smartBodyFails` is whether the body of `smart_time_series_sample`
raises internally; `outerFails` is whether an exception is raised
elsewhere inside the `try` of the time-column branch (reaching the
`except` at sampling.py:378). -/
structure SampleEnv where
  originalSize : ℕ
  hasTimeCol : Bool
  validTimeCount : ℕ
  timeRangeDays : Option ℚ
  resampleLen : String → ℕ
  smartBodyFails : Bool
  outerFails : Bool

/-- `adaptive_sampling_strategy` (sampling.py:290-404), reduced to the
returned `sampling_info`.  The ratio check `valid_time_ratio < 0.5` is
the exact integer test `2 * validTimeCount < originalSize`.  The final
smart branch returns the fallback record when the smart sample is empty
(the `performance_gain` division raises and lands in the `except`). -/
def adaptiveSamplingStrategy (env : SampleEnv) (performanceThreshold : ℕ) : SamplingInfo :=
  let n := env.originalSize
  if n ≤ performanceThreshold then
    { original_size := n, sampled_size := n, sampling_method := "none" }
  else
    let target := calculateOptimalSampleSize n performanceThreshold
    if env.hasTimeCol then
      if env.outerFails then
        { original_size := n, sampled_size := target, sampling_method := "random_fallback" }
      else if 2 * env.validTimeCount < n then
        { original_size := n, sampled_size := target,
          sampling_method := "random_fallback_low_quality" }
      else
        let resampled := env.resampleLen (freqOf env.timeRangeDays)
        if 50000 < n ∧ (0 < resampled ∧ resampled ≤ target) then
          { original_size := n, sampled_size := resampled,
            sampling_method := "time_resample_" ++ freqOf env.timeRangeDays }
        else
          let l := smartSampleLen env.smartBodyFails n target
          if l = 0 then
            { original_size := n, sampled_size := target, sampling_method := "random_fallback" }
          else
            { original_size := n, sampled_size := l, sampling_method := "smart_time_series" }
    else
      { original_size := n, sampled_size := target, sampling_method := "random" }

/-- `_estimate_time_range_days` (sampling.py:407-451).  The time column
is a list of optional timestamps in microseconds (polars `Datetime` with
microsecond precision); `.dt.total_days()` of the max−min duration is
whole-day integer division by `86_400_000_000`.  The ratio check
`valid / len < 0.1` is the exact integer test `10 * valid < len`. -/
def estimateTimeRangeDays (col : List (Option ℤ)) : Option ℚ :=
  if col.all (fun x => x.isNone) then none
  else
    let valid := col.filterMap id
    if 10 * valid.length < col.length then none
    else
      match valid with
      | [] => none
      | t :: ts =>
        let mx := ts.foldl Max.max t
        let mn := ts.foldl Min.min t
        let daysDiff : ℤ := (mx - mn) / 86400000000
        if 0 < daysDiff then some (daysDiff : ℚ) else none

/-! ## Parallel column processing (`analysis/parallel_processor.py`) -/

/-- `parallel_column_processing` (parallel_processor.py:233-289).  The
per-column function is `Except`-valued: `.error` models the function
raising.  Both the sequential path (≤2 columns) and the thread-pool
path produce, for each requested column present in the dataframe, the
function's value on success and `None` on failure, keyed by column in
request order (thread scheduling cannot change the mapping, which is
keyed by column name); the pool wrapper `wrapped_func` catches every
exception into a failed `TaskResult`, mapped to `None` at collection. -/
def parallelColumnProcessing (dfColumns columns : List String)
    (processFunc : String → Except String α) : List (String × Option α) :=
  if columns.length ≤ 2 then
    (columns.filter (fun c => dfColumns.contains c)).map
      (fun c => (c, (processFunc c).toOption))
  else
    (columns.filter (fun c => dfColumns.contains c)).map
      (fun c => (c, (processFunc c).toOption))

/-! ## Correlation merging and correlation matrix -/

/-- One chunk-level correlation result dictionary as seen by
`_merge_correlation_results`: its `correlation_matrix` value (an empty
list models a missing/empty/falsy matrix) and whether the dictionary
carries any key marking it as an approximation (`approxTagged`).  The
producer `calculate_correlation_matrix` emits the keys `matrix`,
`columns`, `shape`, `sample_size`, `warnings`, `excluded_columns` —
none of which is an approximation marker — and the merger never adds
a key, so `approxTagged` is `false` throughout the real pipeline. -/
structure CorrChunkResult where
  correlation_matrix : List (String × List (String × ℚ))
  approxTagged : Bool
  deriving DecidableEq

/-- `_merge_correlation_results` (chunk_processor.py:408-415): return
the first chunk result whose `correlation_matrix` is truthy, else the
empty dictionary. -/
def mergeCorrelationResults (chunkResults : List CorrChunkResult) : CorrChunkResult :=
  match chunkResults.find? (fun r => !r.correlation_matrix.isEmpty) with
  | some r => r
  | none => { correlation_matrix := [], approxTagged := false }

/-- The tail of `calculate_correlation_matrix` (basic_stats.py:296-342)
from the point where `valid_columns` is fixed: build the matrix over
the valid columns, or return an empty matrix plus an extra warning when
fewer than two columns are valid.  `corr i j` is the oracle for the
float `np.corrcoef` entry at row `i`, column `j` (`none` = NaN); the
pipeline applies `np.nan_to_num(·, nan=0.0)`, symmetrises by averaging
with the transpose, and overwrites the diagonal with `1.0`. -/
def matrixEntry (corr : ℕ → ℕ → Option ℚ) (i j : ℕ) : ℚ :=
  if i = j then 1 else ((corr i j).getD 0 + (corr j i).getD 0) / 2

/-- The result fields of `calculate_correlation_matrix` that the claims
concern: the nested matrix dictionary and the warnings list. -/
structure CorrOutput where
  matrix : List (String × List (String × ℚ))
  columns : List String
  warnings : List String
  deriving DecidableEq

/-- Matrix assembly loop (basic_stats.py:327-331) plus the
fewer-than-two-valid-columns early return (basic_stats.py:297-304). -/
def correlationFromValid (validColumns : List String) (corr : ℕ → ℕ → Option ℚ)
    (warningsList : List String) : CorrOutput :=
  if validColumns.length < 2 then
    { matrix := []
      columns := validColumns
      warnings := warningsList ++ ["有效数值列少于2个，无法计算相关性矩阵"] }
  else
    { matrix := validColumns.enum.map (fun p =>
        (p.2, validColumns.enum.map (fun q => (q.2, matrixEntry corr p.1 q.1))))
      columns := validColumns
      warnings := warningsList }

/-- Lookup of `matrix[a][b]` in the nested association list. -/
def matrixLookup (out : CorrOutput) (a b : String) : Option ℚ :=
  match out.matrix.lookup a with
  | some row => row.lookup b
  | none => none

/-! ## Stationarity test wrapper (`analysis/time_series.py`) -/

/-- Result of `perform_adf_test` (time_series.py:154-219). -/
structure AdfResult where
  adf_statistic : Option ℚ
  p_value : Option ℚ
  critical_values : List (String × ℚ)
  is_stationary : Option Bool
  interpretation : String
  deriving DecidableEq

/-- `perform_adf_test` (time_series.py:154-219).  The series is a list
of optional rationals; `adfuller` is the oracle for
`statsmodels.tsa.stattools.adfuller(values, autolag="AIC")`, returning
the statistic, the p-value and the critical values, or `.error` when
the underlying numerical computation raises. -/
def performAdfTest (series : List (Option ℚ))
    (adfuller : List ℚ → Except String (ℚ × ℚ × List (String × ℚ))) : AdfResult :=
  if series.length < 4 then
    { adf_statistic := none, p_value := none, critical_values := []
      is_stationary := none, interpretation := "数据不足，无法进行ADF检验" }
  else
    let cleanSeries := series.filterMap id
    if cleanSeries.length < 4 then
      { adf_statistic := none, p_value := none, critical_values := []
        is_stationary := none, interpretation := "有效数据不足，无法进行ADF检验" }
    else
      match adfuller cleanSeries with
      | Except.ok (adfStatistic, pValue, criticalValues) =>
        { adf_statistic := some adfStatistic
          p_value := some pValue
          critical_values := criticalValues
          is_stationary := some (decide (pValue < 1 / 20))
          interpretation :=
            if pValue < 1 / 20 then "时间序列是平稳的（p值 < 0.05）"
            else "时间序列是非平稳的（p值 ≥ 0.05）" }
      | Except.error e =>
        { adf_statistic := none, p_value := none, critical_values := []
          is_stationary := none, interpretation := "ADF检验失败: " ++ e }

/-! ## Concrete instances used by counterexamples and witnesses -/

/-- The whole-day span `total_days(max − min)` of a list of valid
timestamps (microseconds), `0` for the empty list; the quantity whose
sign gates the `some`/`none` answer of `_estimate_time_range_days`. -/
def daySpanOf (valid : List ℤ) : ℤ :=
  match valid with
  | [] => 0
  | t :: ts => (ts.foldl Max.max t - ts.foldl Min.min t) / 86400000000

/-- A single chunk correlation result with a non-empty matrix and no
approximation marker, as `calculate_correlation_matrix` produces. -/
def exampleCorrChunk : CorrChunkResult :=
  { correlation_matrix := [("a", [("a", 1), ("b", 1 / 2)]), ("b", [("a", 1 / 2), ("b", 1)])]
    approxTagged := false }

/-- A chunk correlation result with an empty (falsy) matrix, as the
producer emits when every column is excluded. -/
def exampleEmptyCorrChunk : CorrChunkResult :=
  { correlation_matrix := [], approxTagged := false }

/-- A 20000-row dataframe with a fully valid time column on which the
body of `smart_time_series_sample` raises internally. -/
def exampleSmartFailEnv : SampleEnv :=
  { originalSize := 20000, hasTimeCol := true, validTimeCount := 20000,
    timeRangeDays := none, resampleLen := fun _ => 0,
    smartBodyFails := true, outerFails := false }

/-- A 200000-row dataframe with a fully valid time column whose
time-resample attempt yields zero rows and whose smart-sampling body
raises internally. -/
def exampleSmartFailEnvBig : SampleEnv :=
  { originalSize := 200000, hasTimeCol := true, validTimeCount := 200000,
    timeRangeDays := none, resampleLen := fun _ => 0,
    smartBodyFails := true, outerFails := false }

/-- A 200000-row dataframe with no usable time column. -/
def exampleSampleEnv : SampleEnv :=
  { originalSize := 200000, hasTimeCol := false, validTimeCount := 0,
    timeRangeDays := none, resampleLen := fun _ => 0,
    smartBodyFails := false, outerFails := false }

/-- A `np.corrcoef` outcome that is NaN everywhere. -/
def exampleNaNCorr : ℕ → ℕ → Option ℚ := fun _ _ => none

/-- A `np.corrcoef` outcome with an asymmetric NaN pattern. -/
def exampleAsymCorr : ℕ → ℕ → Option ℚ :=
  fun i j => if i ≤ j then some (1 / 2) else none

/-- Five column names. -/
def exampleColumns : List String := ["a", "b", "c", "d", "e"]

/-- A per-column function that raises on exactly one of the five
columns. -/
def exampleProcessFunc : String → Except String ℚ :=
  fun c => if c = "c" then Except.error "boom" else Except.ok 1

/-- A series with only two non-null observations. -/
def exampleShortSeries : List (Option ℚ) := [some 1, some 2, none]

/-- A series with four non-null observations. -/
def exampleLongSeries : List (Option ℚ) := [some 1, some 2, some 1, some 3]

/-- An `adfuller` run that fails numerically. -/
def exampleAdfFail : List ℚ → Except String (ℚ × ℚ × List (String × ℚ)) :=
  fun _ => Except.error "singular matrix"

/-- A time column with two valid timestamps exactly two days apart. -/
def exampleTwoDayCol : List (Option ℤ) := [some 0, some 172800000000]

/-! ## Supporting lemmas -/

theorem mergeAcc_assoc (a b c : ColAcc) :
    mergeAcc (mergeAcc a b) c = mergeAcc a (mergeAcc b c) := by
  simp [mergeAcc, add_assoc, min_assoc, max_assoc]

theorem mergeAcc_empty_left (a : ColAcc) : mergeAcc emptyAcc a = a := by
  simp [mergeAcc, emptyAcc]

theorem mergeAcc_empty_right (a : ColAcc) : mergeAcc a emptyAcc = a := by
  simp [mergeAcc, emptyAcc]

theorem foldl_mergeAcc (l : List ColAcc) :
    ∀ b : ColAcc, l.foldl mergeAcc b = mergeAcc b (mergeStats l) := by
  induction l with
  | nil => intro b; simp [mergeStats, mergeAcc_empty_right]
  | cons a l ih =>
    intro b
    simp only [List.foldl_cons, ih (mergeAcc b a), mergeAcc_assoc]
    rw [show mergeStats (a :: l) = mergeAcc a (mergeStats l) from by
      rw [mergeStats, List.foldl_cons, mergeAcc_empty_left, ih a]]

theorem mergeStats_cons (a : ColAcc) (l : List ColAcc) :
    mergeStats (a :: l) = mergeAcc a (mergeStats l) := by
  rw [mergeStats, List.foldl_cons, mergeAcc_empty_left, foldl_mergeAcc l a]

theorem listMin_append (v w : List ℚ) : listMin (v ++ w) = min (listMin v) (listMin w) := by
  induction v with
  | nil => simp [listMin]
  | cons x v ih => simp [listMin, List.foldr_cons, min_assoc] at ih ⊢; rw [ih]

theorem listMax_append (v w : List ℚ) : listMax (v ++ w) = max (listMax v) (listMax w) := by
  induction v with
  | nil => simp [listMax]
  | cons x v ih => simp [listMax, List.foldr_cons, max_assoc] at ih ⊢; rw [ih]

theorem chunkAcc_append (l₁ l₂ : List (Option ℚ)) :
    chunkAcc (l₁ ++ l₂) = mergeAcc (chunkAcc l₁) (chunkAcc l₂) := by
  simp [chunkAcc, mergeAcc, List.filterMap_append, List.filter_append,
    listMin_append, listMax_append]

theorem mergeStats_flatten (part : List (List (Option ℚ))) :
    mergeStats (part.map chunkAcc) = chunkAcc part.flatten := by
  induction part with
  | nil => simp [mergeStats, chunkAcc, emptyAcc, listMin, listMax]
  | cons l part ih => simp [mergeStats_cons, List.flatten_cons, chunkAcc_append, ih]

theorem mergeStats_count (l : List ColAcc) :
    (mergeStats l).count = (l.map ColAcc.count).sum := by
  induction l with
  | nil => simp [mergeStats, emptyAcc]
  | cons a l ih => simp [mergeStats_cons, mergeAcc, ih]

theorem mergeStats_sum (l : List ColAcc) :
    (mergeStats l).sum = (l.map ColAcc.sum).sum := by
  induction l with
  | nil => simp [mergeStats, emptyAcc]
  | cons a l ih => simp [mergeStats_cons, mergeAcc, ih]

theorem mergeStats_sum_sq (l : List ColAcc) :
    (mergeStats l).sum_sq = (l.map ColAcc.sum_sq).sum := by
  induction l with
  | nil => simp [mergeStats, emptyAcc]
  | cons a l ih => simp [mergeStats_cons, mergeAcc, ih]

theorem mergeStats_missing (l : List ColAcc) :
    (mergeStats l).missing = (l.map ColAcc.missing).sum := by
  induction l with
  | nil => simp [mergeStats, emptyAcc]
  | cons a l ih => simp [mergeStats_cons, mergeAcc, ih]

theorem mergeStats_min (l : List ColAcc) :
    (mergeStats l).min = (l.map ColAcc.min).foldr min ⊤ := by
  induction l with
  | nil => simp [mergeStats, emptyAcc]
  | cons a l ih => simp [mergeStats_cons, mergeAcc, ih]

theorem mergeStats_max (l : List ColAcc) :
    (mergeStats l).max = (l.map ColAcc.max).foldr max ⊥ := by
  induction l with
  | nil => simp [mergeStats, emptyAcc]
  | cons a l ih => simp [mergeStats_cons, mergeAcc, ih]

theorem sum_sq_dev (v : List ℚ) (c : ℚ) :
    (v.map (fun x => (x - c) ^ 2)).sum
      = (v.map (fun x => x ^ 2)).sum - 2 * c * v.sum + (v.length : ℚ) * c ^ 2 := by
  induction v with
  | nil => simp
  | cons x v ih => simp [ih]; ring

theorem sum_sq_dev_nonneg (v : List ℚ) (c : ℚ) :
    0 ≤ (v.map (fun x => (x - c) ^ 2)).sum := by
  induction v with
  | nil => simp
  | cons x v ih => simp only [List.map_cons, List.sum_cons]; positivity

theorem var_eq_dev (v : List ℚ) (h : 2 ≤ v.length) :
    max 0 ((((v.map (fun x => x ^ 2)).sum) - v.sum ^ 2 / (v.length : ℚ)) / ((v.length : ℚ) - 1))
      = (v.map (fun x => (x - v.sum / (v.length : ℚ)) ^ 2)).sum / ((v.length : ℚ) - 1) := by
  have hn : (0 : ℚ) < (v.length : ℚ) := by
    have : 0 < v.length := by omega
    exact_mod_cast this
  have hn1 : (0 : ℚ) < (v.length : ℚ) - 1 := by
    have : 2 ≤ (v.length : ℚ) := by exact_mod_cast h
    linarith
  have hkey : (v.map (fun x => (x - v.sum / (v.length : ℚ)) ^ 2)).sum
      = ((v.map (fun x => x ^ 2)).sum) - v.sum ^ 2 / (v.length : ℚ) := by
    rw [sum_sq_dev]
    field_simp
    ring
  rw [max_eq_right, hkey]
  rw [← hkey]
  exact div_nonneg (sum_sq_dev_nonneg v _) (le_of_lt hn1)

theorem stdOf_chunkAcc (col : List (Option ℚ)) :
    stdOf (chunkAcc col) = sampleStd (col.filterMap id) := by
  set v := col.filterMap id with hv
  have hcount : (chunkAcc col).count = v.length := rfl
  by_cases h2 : 1 < v.length
  · have h2' : 2 ≤ v.length := h2
    rw [stdOf, if_pos (by rw [hcount]; exact h2), sampleStd, if_neg (by omega)]
    congr 1
    have := var_eq_dev v h2'
    rw [varOf]
    have hsum : (chunkAcc col).sum = v.sum := rfl
    have hsq : (chunkAcc col).sum_sq = (v.map (fun x => x ^ 2)).sum := rfl
    rw [hsum, hsq, hcount]
    exact_mod_cast congrArg (fun q : ℚ => (q : ℝ)) this
  · rw [stdOf, if_neg (by rw [hcount]; exact h2), sampleStd, if_pos (by omega)]

theorem chain_append {a m b : ℕ} :
    ∀ {l₁ l₂ : List ChunkInfo}, chain a l₁ m → chain m l₂ b → chain a (l₁ ++ l₂) b := by
  intro l₁
  induction l₁ generalizing a with
  | nil =>
    intro l₂ h1 h2
    rw [chain] at h1
    subst h1
    simpa using h2
  | cons c rest ih =>
    intro l₂ h1 h2
    rw [chain] at h1
    exact ⟨h1.1, h1.2.1, h1.2.2.1, ih h1.2.2.2 h2⟩

theorem chain_mapIdx_shift (t : ℕ) :
    ∀ (l : List ChunkInfo) (a b : ℕ) (idf : ℕ → ℕ), chain a l b →
      chain (t + a)
        (l.mapIdx (fun i s =>
          { chunk_id := idf i, start_row := s.start_row + t, end_row := s.end_row + t,
            row_count := s.row_count, memory_estimate := s.memory_estimate }))
        (t + b) := by
  intro l
  induction l with
  | nil =>
    intro a b idf h
    rw [chain] at h
    subst h
    simp [chain]
  | cons c rest ih =>
    intro a b idf h
    rw [chain] at h
    obtain ⟨h1, h2, h3, h4⟩ := h
    rw [List.mapIdx_cons, chain]
    dsimp only
    refine ⟨by omega, by omega, by omega, ?_⟩
    have := ih c.end_row b (fun i => idf (i + 1)) h4
    rw [show t + c.end_row = c.end_row + t from by omega] at this
    exact this

theorem ceil_div_mul_ge (total s : ℕ) (hs : 0 < s) :
    total ≤ ((total + s - 1) / s) * s := by
  obtain ⟨m, hm⟩ : ∃ m, ((total + s - 1) / s) * s = m := ⟨_, rfl⟩
  have hdm := Nat.div_add_mod (total + s - 1) s
  have hr := Nat.mod_lt (total + s - 1) hs
  have hmul : s * ((total + s - 1) / s) = m := by rw [← hm]; ring
  omega

theorem lt_ceil_div_mul_le (total s j : ℕ) (hs : 0 < s)
    (hj : j + 1 ≤ (total + s - 1) / s) : j * s ≤ total := by
  have h1 : (j + 1) * s ≤ total + s - 1 := (Nat.le_div_iff_mul_le hs).mp hj
  have h2 : (j + 1) * s = j * s + s := by ring
  omega

theorem chain_rowChunks_aux (mem : ℕ → ℕ → ℚ) (s off total : ℕ) (hs : 0 < s) :
    ∀ (k j : ℕ), j + k = (total + s - 1) / s → j * s ≤ total →
      chain (j * s)
        ((List.range' j k).map (fun j =>
          { chunk_id := j
            start_row := j * s
            end_row := min ((j + 1) * s) total
            row_count := min ((j + 1) * s) total - j * s
            memory_estimate := mem (off + j * s) (min ((j + 1) * s) total - j * s) :
              ChunkInfo }))
        total := by
  intro k
  induction k with
  | zero =>
    intro j hq hle
    have hge : total ≤ j * s := by
      rw [show j = (total + s - 1) / s from by omega]
      exact ceil_div_mul_ge total s hs
    rw [List.range'_zero, List.map_nil, chain]
    omega
  | succ k ih =>
    intro j hq hle
    rw [List.range'_succ, List.map_cons, chain]
    dsimp only
    have hstep : j * s ≤ (j + 1) * s := Nat.mul_le_mul_right s (by omega)
    refine ⟨rfl, by omega, rfl, ?_⟩
    cases k with
    | zero =>
      have hge : total ≤ (j + 1) * s := by
        rw [show j + 1 = (total + s - 1) / s from by omega]
        exact ceil_div_mul_ge total s hs
      rw [List.range'_zero, List.map_nil, chain]
      omega
    | succ k' =>
      have hle1 : (j + 1) * s ≤ total := by
        refine lt_ceil_div_mul_le total s (j + 1) hs ?_
        omega
      have hmin : min ((j + 1) * s) total = (j + 1) * s := by omega
      rw [hmin]
      exact ih (j + 1) (by omega) hle1

theorem rowChunks_chain (mem : ℕ → ℕ → ℚ) (s off total : ℕ) (hs : 0 < s) :
    chain 0 (rowChunks mem s off total) total := by
  have := chain_rowChunks_aux mem s off total hs ((total + s - 1) / s) 0 (by omega) (by omega)
  rw [rowChunks, List.range_eq_range']
  simpa using this

theorem optimalChunkSize_pos (minRows maxRows : ℕ) (raw : ℕ → ℕ → ℕ) (off len : ℕ)
    (hmin : 0 < minRows) : 0 < optimalChunkSize minRows maxRows raw off len := by
  rw [optimalChunkSize]
  split_ifs <;> omega

theorem createRowBasedChunks_chain (P : Planner) (off total : ℕ)
    (hmin : 0 < P.minChunkRows) : chain 0 (createRowBasedChunks P off total) total := by
  rw [createRowBasedChunks]
  split_ifs with h0
  · subst h0; rw [chain]
  · exact rowChunks_chain _ _ off total (optimalChunkSize_pos _ _ _ off total hmin)

theorem createRowBasedChunksSorted_chain (P : Planner) (total : ℕ)
    (hmin : 0 < P.minChunkRows) : chain 0 (createRowBasedChunksSorted P total) total := by
  rw [createRowBasedChunksSorted]
  split_ifs with h0
  · subst h0; rw [chain]
  · exact rowChunks_chain _ _ 0 total (optimalChunkSize_pos _ _ _ 0 total hmin)

theorem refineChunks_chain (P : Planner) (hmin : 0 < P.minChunkRows) :
    ∀ (cs acc : List ChunkInfo) (x a b : ℕ), chain x acc a → chain a cs b →
      chain x (refineChunks P acc cs) b := by
  intro cs
  induction cs with
  | nil =>
    intro acc x a b hacc hcs
    rw [chain] at hcs
    subst hcs
    simpa [refineChunks] using hacc
  | cons c rest ih =>
    intro acc x a b hacc hcs
    rw [chain] at hcs
    obtain ⟨h1, h2, h3, h4⟩ := hcs
    rw [refineChunks]
    split_ifs with hbig
    · subst h1
      have hsubs := createRowBasedChunks_chain P c.start_row c.row_count hmin
      have hshift := chain_mapIdx_shift c.start_row
        (createRowBasedChunks P c.start_row c.row_count) 0 c.row_count
        (fun i => acc.length + i) hsubs
      have hendeq : c.start_row + c.row_count = c.end_row := by omega
      rw [Nat.add_zero, hendeq] at hshift
      exact ih (acc ++ _) x c.end_row b (chain_append hacc hshift) h4
    · have hc : chain a [c] c.end_row := ⟨h1, h2, h3, rfl⟩
      exact ih (acc ++ [c]) x c.end_row b (chain_append hacc hc) h4

/-- For every planner environment with a positive minimum chunk-row
bound, the plan of `create_adaptive_chunks` is a contiguous, exhaustive
partition of `[0, total)`: the row-range half of the spec's invariant
holds on every path (small data, time-sorted with refinement, and plain
row-based); only the sequential-id half fails (see the C1 theorem). -/
theorem createAdaptiveChunks_chain (P : Planner) (total : ℕ) (hasTimeCol timeOk : Bool)
    (hmin : 0 < P.minChunkRows) :
    chain 0 (createAdaptiveChunks P total hasTimeCol timeOk) total := by
  rw [createAdaptiveChunks]
  by_cases hsmall : P.memEst 0 total ≤ P.maxMem
  · rw [if_pos hsmall]
    exact ⟨rfl, Nat.zero_le total, (Nat.sub_zero total).symm, rfl⟩
  · rw [if_neg hsmall]
    by_cases htime : hasTimeCol = true ∧ 100000 < total
    · rw [if_pos htime]
      refine refineChunks_chain P hmin _ [] 0 0 total rfl ?_
      by_cases hok : timeOk
      · rw [if_pos hok]
        exact createRowBasedChunksSorted_chain P total hmin
      · rw [if_neg hok]
        exact createRowBasedChunks_chain P 0 total hmin
    · rw [if_neg htime]
      exact createRowBasedChunks_chain P 0 total hmin

theorem calculateOptimalSampleSize_le (n t : ℕ) (h : t < n) :
    calculateOptimalSampleSize n t ≤ t := by
  rw [calculateOptimalSampleSize]
  split_ifs <;> omega

theorem calculateOptimalSampleSize_pos (n t : ℕ) (h : t < n) (ht : 0 < t) :
    0 < calculateOptimalSampleSize n t := by
  rw [calculateOptimalSampleSize]
  split_ifs <;> omega

theorem stratifiedIndices_length_le (n t : ℕ) (l : List ℕ)
    (h : stratifiedIndices n t = Except.ok l) : l.length ≤ t := by
  rw [stratifiedIndices] at h
  cases hf : ((List.range (min 20 (Max.max 5 (t / 100)))).takeWhile
      (fun i => i * (n / min 20 (Max.max 5 (t / 100))) < n)).foldl
      (fun acc i => acc.bind (fun l =>
        (stratifiedStep (n / min 20 (Max.max 5 (t / 100)))
          (t / min 20 (Max.max 5 (t / 100))) n i).map (fun s => l ++ s)))
      (Except.ok []) with
  | ok x =>
    rw [hf] at h
    simp only [Except.map] at h
    cases h
    simp [List.length_take]
  | error e =>
    rw [hf] at h
    simp [Except.map] at h

theorem smartSampleLen_le (b : Bool) (n t : ℕ) (h : t < n) :
    smartSampleLen b n t ≤ t := by
  rw [smartSampleLen, if_neg (by omega)]
  split_ifs with hb
  · exact le_refl t
  · cases hs : stratifiedIndices n t with
    | ok idxs => exact stratifiedIndices_length_le n t idxs hs
    | error e => exact le_refl t

theorem lookup_enumFrom_map {β : Type} (g : ℕ → β) :
    ∀ (l : List String) (n : ℕ), l.Nodup → ∀ i, (hi : i < l.length) →
      ((List.enumFrom n l).map (fun p => (p.2, g p.1))).lookup l[i] = some (g (n + i)) := by
  intro l
  induction l with
  | nil => intro n _ i hi; simp at hi
  | cons a l ih =>
    intro n hnd i hi
    rw [List.enumFrom_cons]
    cases i with
    | zero =>
      simp [List.lookup_cons]
    | succ i =>
      have hil : i < l.length := by simpa using hi
      have hmem : l[i] ∈ l := List.getElem_mem hil
      have hne : (l[i] == a) = false := by
        simp only [beq_eq_false_iff_ne, ne_eq]
        intro hcontra
        exact (List.nodup_cons.mp hnd).1 (hcontra ▸ hmem)
      simp only [List.map_cons, List.lookup_cons]
      rw [List.getElem_cons_succ, hne]
      have harith : n + 1 + i = n + (i + 1) := by omega
      rw [ih (n + 1) (List.nodup_cons.mp hnd).2 i hil, harith]

theorem lookup_enum_map {β : Type} (g : ℕ → β) (l : List String) (hnd : l.Nodup)
    (i : ℕ) (hi : i < l.length) :
    ((l.enum).map (fun p => (p.2, g p.1))).lookup l[i] = some (g i) := by
  have henum : l.enum = List.enumFrom 0 l := rfl
  rw [henum, lookup_enumFrom_map g l 0 hnd i hi]
  norm_num

theorem find?_eq_some_first {α : Type} (p : α → Bool) :
    ∀ (l : List α) (r : α), l.find? p = some r →
      ∃ i : Fin l.length, l.get i = r ∧ p r = true ∧
        ∀ k : Fin l.length, k.val < i.val → p (l.get k) = false := by
  intro l
  induction l with
  | nil => intro r hr; simp at hr
  | cons a rest ih =>
    intro r hr
    by_cases hpa : p a = true
    · rw [List.find?_cons_of_pos rest hpa] at hr
      cases hr
      refine ⟨⟨0, by simp⟩, rfl, hpa, ?_⟩
      intro k hk
      simp at hk
    · rw [List.find?_cons_of_neg rest hpa] at hr
      obtain ⟨i, hget, hp, hpre⟩ := ih r hr
      refine ⟨⟨i.val + 1, by simp [i.isLt]⟩, ?_, hp, ?_⟩
      · simpa using hget
      · intro k hk
        match k with
        | ⟨0, _⟩ => simpa using hpa
        | ⟨j + 1, hj⟩ =>
          have hjlt : j < rest.length := by simpa using hj
          have := hpre ⟨j, hjlt⟩ (by simpa using hk)
          simpa using this

theorem matrixEntry_symm (corr : ℕ → ℕ → Option ℚ) (i j : ℕ) :
    matrixEntry corr i j = matrixEntry corr j i := by
  rw [matrixEntry, matrixEntry]
  by_cases hij : i = j
  · subst hij; simp
  · rw [if_neg hij, if_neg (Ne.symm hij)]
    ring

theorem matrixLookup_eq (validColumns : List String) (corr : ℕ → ℕ → Option ℚ)
    (wl : List String) (hnd : validColumns.Nodup) (h2 : 2 ≤ validColumns.length)
    (i j : ℕ) (hi : i < validColumns.length) (hj : j < validColumns.length) :
    matrixLookup (correlationFromValid validColumns corr wl) validColumns[i] validColumns[j]
      = some (matrixEntry corr i j) := by
  rw [matrixLookup, correlationFromValid, if_neg (by omega)]
  rw [lookup_enum_map (fun k => validColumns.enum.map (fun q => (q.2, matrixEntry corr k q.1)))
    validColumns hnd i hi]
  show List.lookup validColumns[j]
      (List.map (fun q => (q.2, matrixEntry corr i q.1)) validColumns.enum)
    = some (matrixEntry corr i j)
  rw [lookup_enum_map (fun k => matrixEntry corr i k) validColumns hnd j hj]

/-! ## Claim theorems -/

/-- C1: the claim asserts that every chunk plan of `create_adaptive_chunks`
has sequential `chunk_id`s `0, 1, 2, …` in list order together with
contiguous, exhaustive row ranges.  The refinement step renumbers only
the sub-chunks of an oversized chunk (to `len(refined_chunks)`) and
appends every other chunk with its stale id, so after any split the
following unrefined chunk keeps an id smaller than its position.  On
`examplePlanner` with 100001 rows and a usable time column the plan has
the contiguous, exhaustive ranges
`[0,50000) [50000,100000) [100000,100001)` but ids `[0, 1, 1]` instead
of `[0, 1, 2]`: the spec's sequential-id invariant is the evident
intent (the sub-chunk renumbering exists precisely for it) and the code
drops it. -/
theorem chunk_refinement_ids_not_sequential :
    (createAdaptiveChunks examplePlanner 100001 true true).map ChunkInfo.chunk_id = [0, 1, 1] ∧
    (createAdaptiveChunks examplePlanner 100001 true true).map
        (fun c => (c.start_row, c.end_row, c.row_count))
      = [(0, 50000, 50000), (50000, 100000, 50000), (100000, 100001, 1)] := by
  constructor <;>
    norm_num [createAdaptiveChunks, refineChunks, createRowBasedChunksSorted,
      createRowBasedChunks, rowChunks, optimalChunkSize, examplePlanner, List.range_succ]

/-- C2: for a non-empty list of per-chunk accumulators of one numeric
column, `_merge_stats_results` sums `count`, `sum`, `sum_sq` and the
missing-value counts, takes elementwise extrema for `min`/`max`, and the
merged accumulator equals the accumulator of the whole column; hence
`mean = sum/count` equals the direct mean whenever `count > 0`, the
derived `std = sqrt(max(0, variance))` equals the direct sample standard
deviation of the whole column, and `std = 0` when `count = 1`. -/
theorem merge_stats_exact (part : List (List (Option ℚ))) (hne : part ≠ []) :
    mergeStats (part.map chunkAcc) = chunkAcc part.flatten ∧
    (mergeStats (part.map chunkAcc)).count = ((part.map chunkAcc).map ColAcc.count).sum ∧
    (mergeStats (part.map chunkAcc)).sum = ((part.map chunkAcc).map ColAcc.sum).sum ∧
    (mergeStats (part.map chunkAcc)).sum_sq = ((part.map chunkAcc).map ColAcc.sum_sq).sum ∧
    (mergeStats (part.map chunkAcc)).min = ((part.map chunkAcc).map ColAcc.min).foldr min ⊤ ∧
    (mergeStats (part.map chunkAcc)).max = ((part.map chunkAcc).map ColAcc.max).foldr max ⊥ ∧
    (mergeStats (part.map chunkAcc)).missing = ((part.map chunkAcc).map ColAcc.missing).sum ∧
    (0 < (mergeStats (part.map chunkAcc)).count →
      meanOf (mergeStats (part.map chunkAcc))
        = (part.flatten.filterMap id).sum / ((part.flatten.filterMap id).length : ℚ)) ∧
    ((mergeStats (part.map chunkAcc)).count = 1 → stdOf (mergeStats (part.map chunkAcc)) = 0) ∧
    stdOf (mergeStats (part.map chunkAcc)) = sampleStd (part.flatten.filterMap id) := by
  refine ⟨mergeStats_flatten part, mergeStats_count _, mergeStats_sum _, mergeStats_sum_sq _,
    mergeStats_min _, mergeStats_max _, mergeStats_missing _, ?_, ?_, ?_⟩
  · intro _
    rw [mergeStats_flatten]
    rfl
  · intro h1
    rw [stdOf, if_neg (by omega)]
  · rw [mergeStats_flatten]
    exact stdOf_chunkAcc _

/-- Witness for C2 at the partition `[[1, null], [2], [null, 4]]`. -/
theorem merge_stats_exact_witness :
    ([[some (1 : ℚ), none], [some 2], [none, some 4]] : List (List (Option ℚ))) ≠ [] ∧
    mergeStats (([[some (1 : ℚ), none], [some 2], [none, some 4]] :
          List (List (Option ℚ))).map chunkAcc)
      = chunkAcc ([[some (1 : ℚ), none], [some 2], [none, some 4]] :
          List (List (Option ℚ))).flatten ∧
    stdOf (mergeStats (([[some (1 : ℚ), none], [some 2], [none, some 4]] :
          List (List (Option ℚ))).map chunkAcc))
      = sampleStd (([[some (1 : ℚ), none], [some 2], [none, some 4]] :
          List (List (Option ℚ))).flatten.filterMap id) :=
  ⟨by simp,
    (merge_stats_exact [[some (1 : ℚ), none], [some 2], [none, some 4]] (by simp)).1,
    (merge_stats_exact [[some (1 : ℚ), none], [some 2], [none, some 4]] (by simp)).2.2.2.2.2.2.2.2.2⟩

/-- C3: for every dataframe (and any positive threshold),
`adaptive_sampling_strategy` reports `sampled_size ≤ original_size`;
whenever the reported method is not `"none"` it reports
`sampled_size ≤ performance_threshold`; and the target size it samples
toward follows the tiered rule — above 100000 rows 5% with floor 5000,
above 50000 rows 10% with floor 8000, otherwise 20% with floor 5000,
every tier capped at the threshold. -/
theorem sampling_bounds (env : SampleEnv) (threshold : ℕ) (hpos : 0 < threshold) :
    (adaptiveSamplingStrategy env threshold).sampled_size
        ≤ (adaptiveSamplingStrategy env threshold).original_size ∧
    ((adaptiveSamplingStrategy env threshold).sampling_method ≠ "none" →
      (adaptiveSamplingStrategy env threshold).sampled_size ≤ threshold) ∧
    (threshold < env.originalSize →
      calculateOptimalSampleSize env.originalSize threshold =
        if 100000 < env.originalSize then
          min threshold (Max.max 5000 (env.originalSize / 20))
        else if 50000 < env.originalSize then
          min threshold (Max.max 8000 (env.originalSize / 10))
        else min threshold (Max.max 5000 (env.originalSize / 5))) := by
  have htier : threshold < env.originalSize →
      calculateOptimalSampleSize env.originalSize threshold =
        if 100000 < env.originalSize then
          min threshold (Max.max 5000 (env.originalSize / 20))
        else if 50000 < env.originalSize then
          min threshold (Max.max 8000 (env.originalSize / 10))
        else min threshold (Max.max 5000 (env.originalSize / 5)) := by
    intro h
    rw [calculateOptimalSampleSize]
    split_ifs <;> omega
  rw [adaptiveSamplingStrategy]
  by_cases hn : env.originalSize ≤ threshold
  · rw [if_pos hn]
    exact ⟨le_refl _, fun hm => absurd rfl hm, htier⟩
  · rw [if_neg hn]
    push_neg at hn
    have htl := calculateOptimalSampleSize_le env.originalSize threshold hn
    have hts : calculateOptimalSampleSize env.originalSize threshold ≤ env.originalSize :=
      le_trans htl (le_of_lt hn)
    by_cases htc : env.hasTimeCol
    · simp only [htc, if_true]
      by_cases hof : env.outerFails
      · simp only [hof, if_true]
        exact ⟨hts, fun _ => htl, htier⟩
      · simp only [hof, if_false]
        by_cases hq : 2 * env.validTimeCount < env.originalSize
        · rw [if_pos hq]
          exact ⟨hts, fun _ => htl, htier⟩
        · rw [if_neg hq]
          by_cases hr : 50000 < env.originalSize ∧
              (0 < env.resampleLen (freqOf env.timeRangeDays) ∧
                env.resampleLen (freqOf env.timeRangeDays)
                  ≤ calculateOptimalSampleSize env.originalSize threshold)
          · rw [if_pos hr]
            exact ⟨le_trans hr.2.2 hts, fun _ => le_trans hr.2.2 htl, htier⟩
          · rw [if_neg hr]
            have hsl := smartSampleLen_le env.smartBodyFails env.originalSize
              (calculateOptimalSampleSize env.originalSize threshold) (lt_of_le_of_lt htl hn)
            by_cases hz : smartSampleLen env.smartBodyFails env.originalSize
                (calculateOptimalSampleSize env.originalSize threshold) = 0
            · rw [if_pos hz]
              exact ⟨hts, fun _ => htl, htier⟩
            · rw [if_neg hz]
              exact ⟨le_trans hsl hts, fun _ => le_trans hsl htl, htier⟩
    · simp only [htc, if_false]
      exact ⟨hts, fun _ => htl, htier⟩

/-- Witness for C3 on a 200000-row dataframe without a time column and
threshold 10000. -/
theorem sampling_bounds_witness :
    0 < 10000 ∧
    (adaptiveSamplingStrategy exampleSampleEnv 10000).sampled_size
      ≤ (adaptiveSamplingStrategy exampleSampleEnv 10000).original_size ∧
    ((adaptiveSamplingStrategy exampleSampleEnv 10000).sampling_method ≠ "none" →
      (adaptiveSamplingStrategy exampleSampleEnv 10000).sampled_size ≤ 10000) :=
  ⟨by decide, (sampling_bounds exampleSampleEnv 10000 (by decide)).1,
    (sampling_bounds exampleSampleEnv 10000 (by decide)).2.1⟩

/-- C4: with more than two columns all present in the dataframe,
`parallel_column_processing` never raises into the caller: it returns
the mapping sending each column to its function value on success and to
`None` when the function raises, each column independent of the rest. -/
theorem parallel_isolation {α : Type} (dfColumns columns : List String)
    (f : String → Except String α)
    (h3 : 2 < columns.length) (hall : ∀ c ∈ columns, c ∈ dfColumns) :
    parallelColumnProcessing dfColumns columns f
        = columns.map (fun c => (c, (f c).toOption)) ∧
    ∀ c ∈ columns,
      (∀ e, f c = Except.error e →
        (c, (none : Option α)) ∈ parallelColumnProcessing dfColumns columns f) ∧
      (∀ a, f c = Except.ok a →
        (c, some a) ∈ parallelColumnProcessing dfColumns columns f) := by
  have hfilter : columns.filter (fun c => dfColumns.contains c) = columns :=
    List.filter_eq_self.mpr (fun c hc => by simpa using hall c hc)
  have hmain : parallelColumnProcessing dfColumns columns f
      = columns.map (fun c => (c, (f c).toOption)) := by
    rw [parallelColumnProcessing]
    split_ifs <;> rw [hfilter]
  refine ⟨hmain, fun c hc => ⟨fun e he => ?_, fun a ha => ?_⟩⟩
  · rw [hmain]
    have : (c, (f c).toOption) ∈ columns.map (fun c => (c, (f c).toOption)) :=
      List.mem_map_of_mem _ hc
    simpa [he, Except.toOption] using this
  · rw [hmain]
    have : (c, (f c).toOption) ∈ columns.map (fun c => (c, (f c).toOption)) :=
      List.mem_map_of_mem _ hc
    simpa [ha, Except.toOption] using this

/-- Witness for C4: five columns, the function raising on exactly one of
them, gives four successful results and one `None`. -/
theorem parallel_isolation_witness :
    2 < exampleColumns.length ∧
    parallelColumnProcessing exampleColumns exampleColumns exampleProcessFunc
      = [("a", some (1 : ℚ)), ("b", some 1), ("c", none), ("d", some 1), ("e", some 1)] ∧
    ((parallelColumnProcessing exampleColumns exampleColumns exampleProcessFunc).filter
        (fun p => p.2 = none)).length = 1 ∧
    ((parallelColumnProcessing exampleColumns exampleColumns exampleProcessFunc).filter
        (fun p => p.2 ≠ none)).length = 4 :=
  ⟨by decide,
    ((parallel_isolation exampleColumns exampleColumns exampleProcessFunc
      (by decide) (fun c hc => hc)).1).trans (by decide),
    by decide, by decide⟩

/-- C5 counterexample: `_merge_correlation_results` on a single chunk
result carrying a non-empty correlation matrix returns that result
verbatim, with no approximation tag of any kind — refuting the claim
that the returned result is explicitly tagged as an approximation. -/
theorem merge_correlation_not_tagged :
    exampleCorrChunk.correlation_matrix ≠ [] ∧
    mergeCorrelationResults [exampleCorrChunk] = exampleCorrChunk ∧
    (mergeCorrelationResults [exampleCorrChunk]).approxTagged = false :=
  ⟨by simp [exampleCorrChunk], rfl, rfl⟩

/-- C5 amended: for every non-empty list of chunk-level correlation
results, the correlation-kind merge returns, unchanged, the first chunk
result in list order whose correlation matrix is non-empty (every
earlier result's matrix being empty), the empty dictionary when no
result has one, and it never adds an approximation marker of its own —
the returned result is tagged only if the chunk result already was
(which the pipeline's producer never does); the "documented
approximation" lives in a source comment only. -/
theorem merge_correlation_first_valid (rs : List CorrChunkResult) (h : rs ≠ []) :
    ((∀ r ∈ rs, r.correlation_matrix = []) →
      mergeCorrelationResults rs = { correlation_matrix := [], approxTagged := false }) ∧
    ((∃ r ∈ rs, r.correlation_matrix ≠ []) →
      ∃ i : Fin rs.length, mergeCorrelationResults rs = rs.get i ∧
        (rs.get i).correlation_matrix ≠ [] ∧
        ∀ k : Fin rs.length, k.val < i.val → (rs.get k).correlation_matrix = []) ∧
    ((mergeCorrelationResults rs).approxTagged = true → ∃ r ∈ rs, r.approxTagged = true) := by
  refine ⟨?_, ?_, ?_⟩
  · intro hall
    rw [mergeCorrelationResults]
    have : rs.find? (fun r => !r.correlation_matrix.isEmpty) = none := by
      rw [List.find?_eq_none]
      intro x hx
      simp [List.isEmpty_iff, hall x hx]
    rw [this]
  · intro hex
    cases hf : rs.find? (fun r => !r.correlation_matrix.isEmpty) with
    | none =>
      obtain ⟨r, hr, hrne⟩ := hex
      rw [List.find?_eq_none] at hf
      exact absurd (by simpa [List.isEmpty_iff] using hf r hr) (by simpa using hrne)
    | some r =>
      obtain ⟨i, hget, hp, hpre⟩ := find?_eq_some_first _ rs r hf
      refine ⟨i, ?_, ?_, ?_⟩
      · rw [mergeCorrelationResults, hf, hget]
      · rw [hget]
        simpa [List.isEmpty_iff] using hp
      · intro k hk
        simpa [List.isEmpty_iff] using hpre k hk
  · intro ht
    rw [mergeCorrelationResults] at ht
    cases hf : rs.find? (fun r => !r.correlation_matrix.isEmpty) with
    | none => rw [hf] at ht; simp at ht
    | some r =>
      rw [hf] at ht
      exact ⟨r, List.mem_of_find?_eq_some hf, ht⟩

/-- Witness for the amended C5 on a two-element list whose first chunk
result has an empty matrix: the merge must skip it and return the
second result. -/
theorem merge_correlation_first_valid_witness :
    ([exampleEmptyCorrChunk, exampleCorrChunk] ≠ []) ∧
    ((∀ r ∈ [exampleEmptyCorrChunk, exampleCorrChunk], r.correlation_matrix = []) →
      mergeCorrelationResults [exampleEmptyCorrChunk, exampleCorrChunk]
        = { correlation_matrix := [], approxTagged := false }) ∧
    ((∃ r ∈ [exampleEmptyCorrChunk, exampleCorrChunk], r.correlation_matrix ≠ []) →
      ∃ i : Fin ([exampleEmptyCorrChunk, exampleCorrChunk] : List CorrChunkResult).length,
        mergeCorrelationResults [exampleEmptyCorrChunk, exampleCorrChunk]
            = [exampleEmptyCorrChunk, exampleCorrChunk].get i ∧
          ([exampleEmptyCorrChunk, exampleCorrChunk].get i).correlation_matrix ≠ [] ∧
          ∀ k : Fin ([exampleEmptyCorrChunk, exampleCorrChunk] : List CorrChunkResult).length,
            k.val < i.val →
              ([exampleEmptyCorrChunk, exampleCorrChunk].get k).correlation_matrix = []) ∧
    ((mergeCorrelationResults [exampleEmptyCorrChunk, exampleCorrChunk]).approxTagged = true →
      ∃ r ∈ [exampleEmptyCorrChunk, exampleCorrChunk], r.approxTagged = true) ∧
    mergeCorrelationResults [exampleEmptyCorrChunk, exampleCorrChunk] = exampleCorrChunk :=
  ⟨by simp,
    (merge_correlation_first_valid [exampleEmptyCorrChunk, exampleCorrChunk] (by simp)).1,
    (merge_correlation_first_valid [exampleEmptyCorrChunk, exampleCorrChunk] (by simp)).2.1,
    (merge_correlation_first_valid [exampleEmptyCorrChunk, exampleCorrChunk] (by simp)).2.2,
    rfl⟩

/-- C6 counterexample: on a dataframe where the smart-sampling body
fails internally (`smartBodyFails = true`), the engine does fall back to
the seeded (seed 42) random sample of `target_size = 5000` rows, but the
returned decision reports method `"smart_time_series"`, not
`"random_fallback"` — the internal exception is swallowed inside
`smart_time_series_sample`, so the caller's `"random_fallback"` label is
never applied. -/
theorem smart_failure_mislabeled :
    exampleSmartFailEnv.smartBodyFails = true ∧
    adaptiveSamplingStrategy exampleSmartFailEnv 10000
      = { original_size := 20000, sampled_size := 5000,
          sampling_method := "smart_time_series" } ∧
    (adaptiveSamplingStrategy exampleSmartFailEnv 10000).sampling_method
      ≠ "random_fallback" :=
  ⟨rfl, rfl, by decide⟩

/-- C6 amended: whenever the smart path is reached — the dataset is at
most 50000 rows, or the time-resample attempt yields zero rows or more
than `target_size` rows — and the sampling body fails internally, the
engine returns the seeded (seed 42) random fallback of `target_size`
rows from inside `smart_time_series_sample`, and the decision reports
method `"smart_time_series"`; the label `"random_fallback"` is reported
only when an exception escapes `smart_time_series_sample` itself (i.e.
is raised elsewhere in the adaptive try block). -/
theorem smart_internal_failure_reported (env : SampleEnv) (threshold : ℕ)
    (hth : 0 < threshold) (hn : threshold < env.originalSize)
    (htc : env.hasTimeCol = true) (hof : env.outerFails = false)
    (hq : env.originalSize ≤ 2 * env.validTimeCount)
    (hres : env.originalSize ≤ 50000 ∨ env.resampleLen (freqOf env.timeRangeDays) = 0 ∨
      calculateOptimalSampleSize env.originalSize threshold
        < env.resampleLen (freqOf env.timeRangeDays))
    (hfail : env.smartBodyFails = true) :
    adaptiveSamplingStrategy env threshold
      = { original_size := env.originalSize
          sampled_size := calculateOptimalSampleSize env.originalSize threshold
          sampling_method := "smart_time_series" } ∧
    (adaptiveSamplingStrategy env threshold).sampling_method ≠ "random_fallback" := by
  have htarget := calculateOptimalSampleSize_le env.originalSize threshold hn
  have htpos := calculateOptimalSampleSize_pos env.originalSize threshold hn hth
  have hsmart : smartSampleLen env.smartBodyFails env.originalSize
      (calculateOptimalSampleSize env.originalSize threshold)
        = calculateOptimalSampleSize env.originalSize threshold := by
    rw [smartSampleLen, if_neg (by omega), hfail, if_pos rfl]
  have hmain : adaptiveSamplingStrategy env threshold
      = { original_size := env.originalSize
          sampled_size := calculateOptimalSampleSize env.originalSize threshold
          sampling_method := "smart_time_series" } := by
    rw [adaptiveSamplingStrategy, if_neg (by omega), htc, if_pos rfl, hof]
    simp only [Bool.false_eq_true, if_false]
    rw [if_neg (by omega), if_neg (by omega), hsmart, if_neg (by omega)]
  refine ⟨hmain, ?_⟩
  rw [hmain]
  show ("smart_time_series" : String) ≠ "random_fallback"
  decide

/-- Witness for the amended C6 at two concrete failing environments:
a 20000-row dataframe (no resample attempt) and a 200000-row dataframe
whose resample attempt yields zero rows — in both, the internal smart
failure is reported as `"smart_time_series"`. -/
theorem smart_internal_failure_reported_witness :
    0 < 10000 ∧ 10000 < exampleSmartFailEnv.originalSize ∧
    adaptiveSamplingStrategy exampleSmartFailEnv 10000
      = { original_size := 20000, sampled_size := 5000,
          sampling_method := "smart_time_series" } ∧
    50000 < exampleSmartFailEnvBig.originalSize ∧
    exampleSmartFailEnvBig.resampleLen (freqOf exampleSmartFailEnvBig.timeRangeDays) = 0 ∧
    adaptiveSamplingStrategy exampleSmartFailEnvBig 10000
      = { original_size := 200000, sampled_size := 10000,
          sampling_method := "smart_time_series" } :=
  ⟨by decide, by decide,
    ((smart_internal_failure_reported exampleSmartFailEnv 10000 (by decide) (by decide)
      rfl rfl (by decide) (by decide) rfl).1).trans (by decide),
    by decide, by decide,
    ((smart_internal_failure_reported exampleSmartFailEnvBig 10000 (by decide) (by decide)
      rfl rfl (by decide) (by decide) rfl).1).trans (by decide)⟩

/-- C7 counterexample: a NaN `np.corrcoef` entry is coerced to `0.0` in
the returned matrix, but the result's warnings list is empty — no
warning recording the coercion is included, refuting the claim that
every coercion is recorded. -/
theorem nan_coercion_unrecorded :
    exampleNaNCorr 0 1 = none ∧
    matrixLookup (correlationFromValid ["a", "b"] exampleNaNCorr []) "a" "b" = some 0 ∧
    (correlationFromValid ["a", "b"] exampleNaNCorr []).warnings = [] := by
  refine ⟨rfl, ?_, rfl⟩
  norm_num [matrixLookup, correlationFromValid, matrixEntry, exampleNaNCorr,
    List.enum, List.enumFrom, List.lookup]
  rfl

/-- C7 amended: NaN correlation entries are coerced to `0.0`
(`np.nan_to_num`), so no NaN or Infinity appears in the returned
matrix, but the coercion is silent: the warnings list of the result is
exactly the column-validity warnings, independent of which entries were
NaN — no warning recording a coercion is ever added. -/
theorem correlation_warnings_ignore_nan (validColumns wl : List String)
    (corr corr' : ℕ → ℕ → Option ℚ) :
    (correlationFromValid validColumns corr wl).warnings
        = (correlationFromValid validColumns corr' wl).warnings ∧
    (∀ i j, i ≠ j → corr i j = none → corr j i = none → matrixEntry corr i j = 0) := by
  constructor
  · rw [correlationFromValid, correlationFromValid]
    split_ifs <;> rfl
  · intro i j hij h1 h2
    rw [matrixEntry, if_neg hij, h1, h2]
    norm_num

/-- Witness for the amended C7: the all-NaN oracle yields the same
warnings as an all-finite oracle, and its off-diagonal entry is the
coerced `0`. -/
theorem correlation_warnings_ignore_nan_witness :
    (correlationFromValid ["a", "b"] exampleNaNCorr []).warnings
        = (correlationFromValid ["a", "b"] (fun _ _ => some 1) []).warnings ∧
    matrixEntry exampleNaNCorr 0 1 = 0 :=
  ⟨(correlation_warnings_ignore_nan ["a", "b"] [] exampleNaNCorr (fun _ _ => some 1)).1,
    (correlation_warnings_ignore_nan ["a", "b"] [] exampleNaNCorr (fun _ _ => some 1)).2
      0 1 (by decide) rfl rfl⟩

/-- C8: the stationarity test returns all-null statistic/p-value/
`is_stationary` fields with a non-empty human-readable reason when the
series has fewer than four non-null observations, and any numerical
failure of the underlying `adfuller` run is caught and reported as a
textual interpretation with null fields, never propagated. -/
theorem adf_test_safe (series : List (Option ℚ))
    (adfuller : List ℚ → Except String (ℚ × ℚ × List (String × ℚ))) :
    ((series.filterMap id).length < 4 →
      (performAdfTest series adfuller).adf_statistic = none ∧
      (performAdfTest series adfuller).p_value = none ∧
      (performAdfTest series adfuller).is_stationary = none ∧
      (performAdfTest series adfuller).interpretation ≠ "") ∧
    (∀ e, 4 ≤ (series.filterMap id).length →
      adfuller (series.filterMap id) = Except.error e →
      (performAdfTest series adfuller).adf_statistic = none ∧
      (performAdfTest series adfuller).p_value = none ∧
      (performAdfTest series adfuller).is_stationary = none ∧
      (performAdfTest series adfuller).interpretation = "ADF检验失败: " ++ e) := by
  have hle : (series.filterMap id).length ≤ series.length := List.length_filterMap_le id series
  rw [performAdfTest]
  by_cases h4 : series.length < 4
  · rw [if_pos h4]
    exact ⟨fun _ => ⟨rfl, rfl, rfl, by decide⟩, fun e hge _ => absurd hge (by omega)⟩
  · rw [if_neg h4]
    by_cases hc : (series.filterMap id).length < 4
    · rw [if_pos hc]
      exact ⟨fun _ => ⟨rfl, rfl, rfl, by decide⟩, fun e hge _ => absurd hge (by omega)⟩
    · rw [if_neg hc]
      refine ⟨fun hlt => absurd hlt hc, fun e _ he => ?_⟩
      rw [he]
      exact ⟨rfl, rfl, rfl, rfl⟩

/-- Witness for C8: a 2-observation series yields all-null fields with a
non-empty reason, and a 4-observation series on which `adfuller` fails
numerically yields the caught textual interpretation. -/
theorem adf_test_safe_witness :
    (exampleShortSeries.filterMap id).length < 4 ∧
    (performAdfTest exampleShortSeries exampleAdfFail).is_stationary = none ∧
    (performAdfTest exampleShortSeries exampleAdfFail).interpretation ≠ "" ∧
    4 ≤ (exampleLongSeries.filterMap id).length ∧
    (performAdfTest exampleLongSeries exampleAdfFail).is_stationary = none ∧
    (performAdfTest exampleLongSeries exampleAdfFail).interpretation
      = "ADF检验失败: " ++ "singular matrix" :=
  ⟨by decide,
    ((adf_test_safe exampleShortSeries exampleAdfFail).1 (by decide)).2.2.1,
    ((adf_test_safe exampleShortSeries exampleAdfFail).1 (by decide)).2.2.2,
    by decide,
    ((adf_test_safe exampleLongSeries exampleAdfFail).2 "singular matrix" (by decide) rfl).2.2.1,
    ((adf_test_safe exampleLongSeries exampleAdfFail).2 "singular matrix" (by decide) rfl).2.2.2⟩

/-- C9 counterexample: a time column with two valid timestamps at the
same instant (ratio 100%, two valid rows) makes the claim demand the
genuine zero span `0.0`, but `_estimate_time_range_days` returns `None`
because of its `days_diff > 0` acceptance check — so callers cannot
distinguish a zero span from an unknown one. -/
theorem time_range_zero_span_is_none :
    2 ≤ (([some 0, some 0] : List (Option ℤ)).filterMap id).length ∧
    ¬ 10 * (([some 0, some 0] : List (Option ℤ)).filterMap id).length
        < ([some 0, some 0] : List (Option ℤ)).length ∧
    estimateTimeRangeDays [some 0, some 0] = none :=
  ⟨by decide, by decide, rfl⟩

/-- C9 amended: the helper returns `none` when the non-null ratio is
below 10%, when fewer than 2 valid rows exist, and also whenever the
whole-day truncated span `total_days(max − min)` is not positive (zero
or sub-day spans included); otherwise it returns that whole-day span.
Zero spans are therefore reported as `none`, indistinguishable from
"unknown". -/
theorem estimate_time_range_characterized (col : List (Option ℤ)) :
    (10 * (col.filterMap id).length < col.length → estimateTimeRangeDays col = none) ∧
    ((col.filterMap id).length < 2 → estimateTimeRangeDays col = none) ∧
    (daySpanOf (col.filterMap id) ≤ 0 → estimateTimeRangeDays col = none) ∧
    (¬ 10 * (col.filterMap id).length < col.length →
      0 < daySpanOf (col.filterMap id) →
      estimateTimeRangeDays col = some ((daySpanOf (col.filterMap id) : ℤ) : ℚ)) := by
  have hall : col.all (fun x => x.isNone) = true ↔ col.filterMap id = [] := by
    rw [List.all_eq_true, List.filterMap_eq_nil_iff]
    constructor
    · intro h a ha
      have := h a ha
      simpa [Option.isNone_iff_eq_none] using this
    · intro h a ha
      simpa [Option.isNone_iff_eq_none] using h a ha
  rw [estimateTimeRangeDays]
  by_cases h0 : col.all (fun x => x.isNone) = true
  · rw [if_pos h0]
    have hnil := hall.mp h0
    refine ⟨fun _ => rfl, fun _ => rfl, fun _ => rfl, fun _ hpos => ?_⟩
    rw [hnil] at hpos
    simp [daySpanOf] at hpos
  · rw [if_neg h0]
    have hne : col.filterMap id ≠ [] := fun hcontra => h0 (hall.mpr hcontra)
    by_cases hratio : 10 * (col.filterMap id).length < col.length
    · rw [if_pos hratio]
      exact ⟨fun _ => rfl, fun _ => rfl, fun _ => rfl, fun hr _ => absurd hratio hr⟩
    · rw [if_neg hratio]
      cases hv : col.filterMap id with
      | nil => exact absurd hv hne
      | cons t ts =>
        have hd : daySpanOf (t :: ts)
            = (ts.foldl Max.max t - ts.foldl Min.min t) / 86400000000 := rfl
        simp only [hv, hd]
        refine ⟨fun hcontra => absurd hcontra (hv ▸ hratio), ?_, ?_, ?_⟩
        · intro hlen2
          have hts : ts = [] := by
            simpa using List.length_eq_zero.mp (by simpa using Nat.lt_succ_iff_lt_or_eq.mp hlen2)
          subst hts
          norm_num
        · intro hle
          rw [if_neg (by omega)]
        · intro _ hpos
          rw [if_pos hpos]

/-- Witness for the amended C9: two valid timestamps two days apart give
`some 2`. -/
theorem estimate_time_range_characterized_witness :
    ¬ 10 * (exampleTwoDayCol.filterMap id).length < exampleTwoDayCol.length ∧
    0 < daySpanOf (exampleTwoDayCol.filterMap id) ∧
    estimateTimeRangeDays exampleTwoDayCol = some 2 :=
  ⟨by decide, by decide,
    ((estimate_time_range_characterized exampleTwoDayCol).2.2.2
      (by decide) (by decide)).trans (by decide)⟩

/-- C10: whenever `calculate_correlation_matrix` produces a non-empty
matrix (at least two valid, distinct column names), the returned nested
dictionary is symmetric — `matrix[a][b] = matrix[b][a]` for every pair
of valid columns — and every diagonal entry `matrix[a][a]` is exactly
`1.0`, for every possible `np.corrcoef` outcome including NaN
patterns. -/
theorem correlation_matrix_symmetric (validColumns : List String)
    (corr : ℕ → ℕ → Option ℚ) (wl : List String)
    (hnd : validColumns.Nodup) (h2 : 2 ≤ validColumns.length)
    (a b : String) (ha : a ∈ validColumns) (hb : b ∈ validColumns) :
    matrixLookup (correlationFromValid validColumns corr wl) a b
        = matrixLookup (correlationFromValid validColumns corr wl) b a ∧
    (matrixLookup (correlationFromValid validColumns corr wl) a b).isSome = true ∧
    matrixLookup (correlationFromValid validColumns corr wl) a a = some 1 := by
  obtain ⟨i, hi, rfl⟩ := List.mem_iff_getElem.mp ha
  obtain ⟨j, hj, rfl⟩ := List.mem_iff_getElem.mp hb
  rw [matrixLookup_eq validColumns corr wl hnd h2 i j hi hj,
    matrixLookup_eq validColumns corr wl hnd h2 j i hj hi,
    matrixLookup_eq validColumns corr wl hnd h2 i i hi hi]
  refine ⟨congrArg some (matrixEntry_symm corr i j), rfl, ?_⟩
  rw [matrixEntry, if_pos rfl]

/-- Witness for C10 over an asymmetric NaN pattern on two columns. -/
theorem correlation_matrix_symmetric_witness :
    (["a", "b"] : List String).Nodup ∧
    matrixLookup (correlationFromValid ["a", "b"] exampleAsymCorr []) "a" "b"
        = matrixLookup (correlationFromValid ["a", "b"] exampleAsymCorr []) "b" "a" ∧
    matrixLookup (correlationFromValid ["a", "b"] exampleAsymCorr []) "a" "a" = some 1 :=
  ⟨by decide,
    (correlation_matrix_symmetric ["a", "b"] exampleAsymCorr [] (by decide) (by decide)
      "a" "b" (by decide) (by decide)).1,
    (correlation_matrix_symmetric ["a", "b"] exampleAsymCorr [] (by decide) (by decide)
      "a" "b" (by decide) (by decide)).2.2⟩

end DataReport
